import Mathlib

/-!
Shallow embedding of the `langgraph-supervisor-py` repository
(packages `langgraph_multi_agent` and `langgraph_multi_agent_supervisor`).

Python dictionaries holding messages are embedded as Lean structures, the
message list of a `MessagesState` as a `List`, and Python exceptions as an
`Except` over an explicit error type whose constructors correspond one-to-one
to the distinct `raise ValueError(...)` sites of the source.
-/

set_option autoImplicit false

deriving instance DecidableEq for Except

namespace LangGraphMultiAgent

/-- Role tag of a message (`message.type` in langchain: "human", "ai", "tool"). -/
inductive MsgType where
  | human
  | ai
  | tool
  deriving DecidableEq, Repr

/-- A recorded tool invocation on an AI message (`tool_call["name"]`,
`tool_call["args"]`, `tool_call["id"]`).  The `args` mapping is embedded as an
association list from argument name to string value. -/
structure ToolCall where
  name : String
  args : List (String × String)
  id : String
  deriving DecidableEq, Repr

/-- The three entries written by `_get_agent_input_from_tool_call` into the
synthetic human message's `additional_kwargs` dictionary and read back by
`_get_agent_output_as_tool_response`.  `tool_message_id` is the `id` of the
tool message being replaced; message ids are optional, hence `Option`. -/
structure ToolCallInfo where
  tool_call_id : String
  tool_call_name : String
  tool_message_id : Option String
  deriving DecidableEq, Repr

/-- A langchain message, restricted to the fields this repository reads or
writes: the role tag, `content`, the optional `id`, the optional `name` and
`tool_call_id` (set on `ToolMessage`s), the list of `tool_calls` (populated on
AI messages), and `additional_kwargs` (embedded as the optional
`ToolCallInfo` record, which is exactly the shape this code stores there). -/
structure Message where
  type : MsgType
  content : String
  id : Option String := none
  name : Option String := none
  tool_call_id : Option String := none
  tool_calls : List ToolCall := []
  additional_kwargs : Option ToolCallInfo := none
  deriving DecidableEq, Repr

/-- `MessagesState`: a state dictionary with a `messages` key. -/
structure MessagesState where
  messages : List Message
  deriving DecidableEq, Repr

/-- Python's substring test `pat in hay` (used by
`_get_agent_input_from_tool_call` as `agent_name in tool_call["name"]`):
`pat` occurs in `hay` iff it is a prefix of some suffix of `hay`. -/
def strIn (pat hay : String) : Bool :=
  (List.range (hay.toList.length + 1)).any fun i =>
    pat.toList.isPrefixOf (hay.toList.drop i)

/-- One constructor per distinct `raise ValueError(...)` site of the source. -/
inductive AgentError where
  /-- `_get_agent_input_from_tool_call`: fewer than two messages. -/
  | notEnoughMessages
  /-- `_get_agent_input_from_tool_call`: the combined check that the
  second-to-last message is `ai`-typed and the last is `tool`-typed. -/
  | lastTwoNotAiAndTool
  /-- `_get_agent_input_from_tool_call`: the last AI message does not have
  exactly one tool call (the actual count is reported). -/
  | notExactlyOneToolCall (got : Nat)
  /-- `_get_agent_input_from_tool_call`: the tool call's name does not
  contain the agent name (the actual name is reported). -/
  | wrongToolCallName (got : String)
  /-- `_get_agent_input_from_tool_call`: no `task_description` argument. -/
  | missingTaskDescription
  /-- Index error on an empty `messages` list of an agent output. -/
  | emptyAgentOutput
  /-- Key error in `_get_agent_output_as_tool_response`: the first output
  message carries no handoff metadata in `additional_kwargs`. -/
  | missingHandoffMetadata
  /-- `ToolCallingAgent._validate`: `tool_response` output without
  `tool_call` input. -/
  | invalidStrategyCombo
  /-- `ToolCallingAgent._validate`: `last_message` output with handoffs. -/
  | lastMessageWithHandoffs
  /-- `_validate_agent_handoffs`: handoff config for a non-existent agent. -/
  | unknownHandoffTarget (source : String) (target : String)
  /-- `_validate_agent_handoffs`: task description requested but the target
  agent's input strategy is not `tool_call`. -/
  | incompatibleHandoffStrategy (source : String) (target : String)
  /-- `langgraph_multi_agent_supervisor.create_supervisor`: agent name is
  `None` or the default `"LangGraph"`. -/
  | unnamedAgent
  /-- `langgraph_multi_agent_supervisor.create_supervisor`: duplicate name. -/
  | duplicateAgentName (name : String)
  deriving DecidableEq, Repr

/-- `AgentInputStrategy = Literal["full_history", "tool_call"]`. -/
inductive AgentInputStrategy where
  | full_history
  | tool_call
  deriving DecidableEq, Repr

/-- `AgentOutputStrategy = Literal["full_history", "last_message", "tool_response"]`. -/
inductive AgentOutputStrategy where
  | full_history
  | last_message
  | tool_response
  deriving DecidableEq, Repr

/-- `_get_agent_input_from_tool_call(input, agent_name)`: the `tool_call`
input adapter.  Each `throw` mirrors the `raise ValueError` at the same
position in the source; on success it returns the state holding the single
synthetic `HumanMessage` whose content is the task description and whose
`additional_kwargs` record the originating tool call id and name and the id
of the tool message it conceptually replaces. -/
def getAgentInputFromToolCall (input : MessagesState) (agent_name : String) :
    Except AgentError MessagesState :=
  let msgs := input.messages
  if h : msgs.length < 2 then
    throw .notEnoughMessages
  else
    let last_ai_message := msgs.get ⟨msgs.length - 2, by omega⟩
    let last_tool_message := msgs.get ⟨msgs.length - 1, by omega⟩
    if last_ai_message.type ≠ .ai ∨ last_tool_message.type ≠ .tool then
      throw .lastTwoNotAiAndTool
    else
      match last_ai_message.tool_calls with
      | [tool_call] =>
        if ¬ strIn agent_name tool_call.name then
          throw (.wrongToolCallName tool_call.name)
        else
          match tool_call.args.lookup "task_description" with
          | none => throw .missingTaskDescription
          | some task_description =>
            pure { messages := [
              { type := .human
                content := task_description
                additional_kwargs := some
                  { tool_call_id := tool_call.id
                    tool_call_name := tool_call.name
                    tool_message_id := last_tool_message.id } } ] }
      | tcs => throw (.notExactlyOneToolCall tcs.length)

/-- `_get_agent_output_as_tool_response(output)`: reads the handoff metadata
from the first output message's `additional_kwargs` and rebuilds a
`ToolMessage` whose content is the last output message's content and whose
`id` is the recorded `tool_message_id` (so the identifier-based merge rule
replaces the placeholder tool message). -/
def getAgentOutputAsToolResponse (output : MessagesState) :
    Except AgentError MessagesState :=
  match output.messages with
  | [] => throw .emptyAgentOutput
  | m0 :: rest =>
    match m0.additional_kwargs with
    | none => throw .missingHandoffMetadata
    | some tool_call_info =>
      let lastMsg := (m0 :: rest).getLast (List.cons_ne_nil m0 rest)
      pure { messages := [
        { type := .tool
          content := lastMsg.content
          name := some tool_call_info.tool_call_name
          tool_call_id := some tool_call_info.tool_call_id
          id := tool_call_info.tool_message_id } ] }

/-- The value stored under the `messages` key of a state update: the
`last_message` branch of `LangGraphAgent._get_agent_output` stores a single
bare message, the other branches a list. -/
inductive MessagesValue where
  | single (m : Message)
  | list (ms : List Message)
  deriving DecidableEq, Repr

/-- How the `add_messages` reducer coerces a `messages` value to a list. -/
def MessagesValue.toList : MessagesValue → List Message
  | .single m => [m]
  | .list ms => ms

/-- A state update returned by an agent node (`{"messages": ...}`). -/
structure StateUpdate where
  messages : MessagesValue
  deriving DecidableEq, Repr

/-- `LangGraphAgent._get_agent_input`, with `self`'s strategy and name made
explicit.  The `else raise` branch of the source is unreachable because the
strategy type is the closed `Literal`. -/
def getAgentInput (strategy : AgentInputStrategy) (agent_name : String)
    (input : MessagesState) : Except AgentError MessagesState :=
  match strategy with
  | .full_history => pure input
  | .tool_call => getAgentInputFromToolCall input agent_name

/-- `LangGraphAgent._get_agent_output`, with `self`'s strategy made explicit.
`output["messages"][-1]` on an empty list is an index error, embedded as
`throw .emptyAgentOutput`. -/
def getAgentOutput (strategy : AgentOutputStrategy) (output : MessagesState) :
    Except AgentError StateUpdate :=
  match strategy with
  | .full_history => pure { messages := .list output.messages }
  | .last_message =>
    match output.messages.getLast? with
    | none => throw .emptyAgentOutput
    | some m => pure { messages := .single m }
  | .tool_response =>
    (getAgentOutputAsToolResponse output).map fun s => { messages := .list s.messages }

/-- `HandoffConfig` (module `langgraph_multi_agent.handoff`). -/
structure HandoffConfig where
  agent_name : String
  create_task_description : Bool := false
  deriving DecidableEq, Repr

/-- An entry of `can_handoff_to`: a plain agent name or a `HandoffConfig`. -/
inductive HandoffSpec where
  | ofName (s : String)
  | ofConfig (c : HandoffConfig)
  deriving DecidableEq, Repr

/-- The normalization applied by the source at each use site:
`HandoffConfig(agent_name=handoff_to) if isinstance(handoff_to, str) else handoff_to`. -/
def HandoffSpec.toConfig : HandoffSpec → HandoffConfig
  | .ofName s => { agent_name := s }
  | .ofConfig c => c

/-- `Command.PARENT` scope marker of a routing command. -/
inductive CommandScope where
  | parent
  deriving DecidableEq, Repr

/-- `langgraph.types.Command` as used by the handoff tools: destination node,
scope, and the state update carried along. -/
structure Command where
  goto : String
  graph : CommandScope
  update : MessagesState
  deriving DecidableEq, Repr

/-- The two shapes of a handoff tool: without a task description the tool
takes only the injected `tool_call_id`; with one it additionally takes the
free-text `task_description`. -/
inductive HandoffToolFn where
  | noTask (f : String → Command)
  | withTask (f : String → String → Command)

/-- A named tool produced by `create_handoff_tool`. -/
structure HandoffTool where
  name : String
  fn : HandoffToolFn

/-- `create_handoff_tool(handoff_config=...)` (module
`langgraph_multi_agent.handoff`).  In both shapes the returned `Command`
routes to the target in the parent graph and its update is the single
acknowledgement `ToolMessage`; the `task_description` argument of the second
shape is accepted but not used in the command. -/
def create_handoff_tool (handoff_config : HandoffConfig) : HandoffTool :=
  let tool_name := "transfer_to_" ++ handoff_config.agent_name
  let tool_message_content := "Successfully transferred to " ++ handoff_config.agent_name
  let mkCommand : String → Command := fun tool_call_id =>
    { goto := handoff_config.agent_name
      graph := .parent
      update := { messages := [
        { type := .tool
          content := tool_message_content
          name := some tool_name
          tool_call_id := some tool_call_id } ] } }
  if handoff_config.create_task_description then
    { name := tool_name, fn := .withTask fun _task_description tool_call_id => mkCommand tool_call_id }
  else
    { name := tool_name, fn := .noTask fun tool_call_id => mkCommand tool_call_id }

/-- An agent node (`LangGraphAgent`), the underlying capability embedded as a
function on `MessagesState`.  Python's `isinstance(agent, ToolCallingAgent)`
subclass test together with the subclass's `can_handoff_to` field is embedded
as the `toolCalling` field: `none` for a plain `LangGraphAgent`, `some cht`
for a `ToolCallingAgent` with `can_handoff_to = cht`. -/
structure LangGraphAgent where
  name : String
  agent : MessagesState → MessagesState
  is_entrypoint : Bool := false
  always_handoff_to : Option (List String) := none
  agent_input_strategy : AgentInputStrategy := .full_history
  agent_output_strategy : AgentOutputStrategy := .full_history
  toolCalling : Option (Option (List HandoffSpec)) := none

/-- Python truthiness of an `Optional[list]`: `None` and `[]` are falsy. -/
def truthyList {α : Type} : Option (List α) → Bool
  | none => false
  | some l => !l.isEmpty

/-- `LangGraphAgent.invoke`: adapt the input, invoke the underlying agent,
adapt the output. -/
def LangGraphAgent.invoke (a : LangGraphAgent) (input : MessagesState) :
    Except AgentError StateUpdate := do
  let input ← getAgentInput a.agent_input_strategy a.name input
  let output := a.agent input
  getAgentOutput a.agent_output_strategy output

/-- `LangGraphAgent.copy(**update)` at the call shape used by
`create_supervisor`: rebuild the agent with the three overridden fields. -/
def LangGraphAgent.copy (a : LangGraphAgent)
    (always_handoff_to : Option (List String))
    (agent_input_strategy : AgentInputStrategy)
    (agent_output_strategy : AgentOutputStrategy) : LangGraphAgent :=
  { a with
    always_handoff_to := always_handoff_to
    agent_input_strategy := agent_input_strategy
    agent_output_strategy := agent_output_strategy }

/-- `ToolCallingAgent.__init__`: builds the underlying ReAct agent (external,
passed in as `react_agent`) and then runs `_validate`, whose two checks are
embedded in source order.  On success the node carries
`toolCalling := some can_handoff_to`. -/
def ToolCallingAgent.make (name : String) (react_agent : MessagesState → MessagesState)
    (is_entrypoint : Bool)
    (can_handoff_to : Option (List HandoffSpec))
    (always_handoff_to : Option (List String))
    (agent_input_strategy : AgentInputStrategy)
    (agent_output_strategy : AgentOutputStrategy) :
    Except AgentError LangGraphAgent :=
  if agent_output_strategy = .tool_response ∧ agent_input_strategy ≠ .tool_call then
    throw .invalidStrategyCombo
  else if agent_output_strategy = .last_message ∧ truthyList can_handoff_to then
    throw .lastMessageWithHandoffs
  else
    pure { name := name
           agent := react_agent
           is_entrypoint := is_entrypoint
           always_handoff_to := always_handoff_to
           agent_input_strategy := agent_input_strategy
           agent_output_strategy := agent_output_strategy
           toolCalling := some can_handoff_to }

/-- First-match lookup in an association list (a Python `dict.get`; the
tables built by `dictInsert` have unique keys, so first match is the match). -/
def dictGet {α : Type} : List (String × α) → String → Option α
  | [], _ => none
  | (k', v) :: rest, k => if k' = k then some v else dictGet rest k

/-- Insertion into a Python dict embedded as an association list: an existing
key keeps its position and gets the new value (later wins), a new key is
appended. -/
def dictInsert {α : Type} (d : List (String × α)) (k : String) (v : α) :
    List (String × α) :=
  if d.any (fun p => p.1 = k) then
    d.map fun p => if p.1 = k then (k, v) else p
  else
    d ++ [(k, v)]

/-- `{agent.name: agent for agent in agents}`: the name-keyed table.
Duplicate names are not rejected; the later agent silently overwrites. -/
def agentNameToAgent (agents : List LangGraphAgent) :
    List (String × LangGraphAgent) :=
  agents.foldl (fun d a => dictInsert d a.name a) []

/-- Effectful iteration of a Python `for` loop whose body may raise:
stops at the first error. -/
def exceptForM {ε α : Type} : List α → (α → Except ε Unit) → Except ε Unit
  | [], _ => pure ()
  | x :: xs, f => do
    f x
    exceptForM xs f

/-- Body of the outer loop of `_validate_agent_handoffs` for one table entry:
skip non-`ToolCallingAgent`s and falsy `can_handoff_to`; otherwise check each
handoff config against the table. -/
def validateOneAgentHandoffs (table : List (String × LangGraphAgent))
    (agent_name : String) (agent : LangGraphAgent) : Except AgentError Unit :=
  match agent.toolCalling with
  | none => pure ()
  | some can_handoff_to =>
    if !truthyList can_handoff_to then pure ()
    else
      exceptForM (can_handoff_to.getD []) fun spec => do
        let handoff_config := spec.toConfig
        match dictGet table handoff_config.agent_name with
        | none =>
          throw (.unknownHandoffTarget agent_name handoff_config.agent_name)
        | some target_agent =>
          if handoff_config.create_task_description ∧
              target_agent.agent_input_strategy ≠ .tool_call then
            throw (.incompatibleHandoffStrategy agent_name handoff_config.agent_name)
          else
            pure ()

/-- `_validate_agent_handoffs(agent_name_to_agent)`. -/
def validateAgentHandoffs (table : List (String × LangGraphAgent)) :
    Except AgentError Unit :=
  exceptForM table fun p => validateOneAgentHandoffs table p.1 p.2

/-- The `START` sentinel vertex of the external graph library. -/
def START : String := "__start__"

/-- The external `StateGraph` builder, modelled from the spec at its
interface boundary (spec section 6): vertex registration records the vertex
name, edge registration records the `(from, to)` pair; no validation is
performed by registration itself. -/
structure StateGraph where
  nodes : List String
  edges : List (String × String)
  deriving DecidableEq, Repr

/-- One step of the builder loop of `create_multi_agent_workflow`: add the
node, an entry edge if `is_entrypoint`, and — `if agent.always_handoff_to:`
(Python truthiness) — one static edge per listed target name (edge
registration modelled from spec sections 4.5 and 6). -/
def addAgentToGraph (g : StateGraph) (agent : LangGraphAgent) : StateGraph :=
  let g := { g with nodes := g.nodes ++ [agent.name] }
  let g := if agent.is_entrypoint then
      { g with edges := g.edges ++ [(START, agent.name)] }
    else g
  if truthyList agent.always_handoff_to then
    { g with edges := g.edges ++
        (agent.always_handoff_to.getD []).map fun t => (agent.name, t) }
  else g

/-- The static edges one agent contributes in the builder loop of
`create_multi_agent_workflow` (entry edge plus `always_handoff_to` edges). -/
def agentStaticEdges (agent : LangGraphAgent) : List (String × String) :=
  (if agent.is_entrypoint then [(START, agent.name)] else []) ++
  (if truthyList agent.always_handoff_to then
     (agent.always_handoff_to.getD []).map fun t => (agent.name, t)
   else [])

/-- `create_multi_agent_workflow(agents)`: build the name-keyed table,
validate the declared handoffs, then register every node and its static
edges. -/
def create_multi_agent_workflow (agents : List LangGraphAgent) :
    Except AgentError StateGraph := do
  let table := agentNameToAgent agents
  validateAgentHandoffs table
  pure (agents.foldl addAgentToGraph { nodes := [], edges := [] })

/-- `architectures.supervisor.create_supervisor`.  The supervisor's
underlying ReAct agent (built externally from the supervisor model, prompt
and handoff tools) is passed in as `supervisor_capability`. -/
def create_supervisor (agents : List LangGraphAgent)
    (supervisor_capability : MessagesState → MessagesState)
    (supervisor_name : String)
    (is_router : Bool)
    (agents_as_tools : Bool) : Except AgentError StateGraph := do
  let supervisor_can_handoff_to := agents.map fun agent =>
    HandoffSpec.ofConfig
      { agent_name := agent.name, create_task_description := agents_as_tools }
  let supervisor ← ToolCallingAgent.make supervisor_name supervisor_capability
    true (some supervisor_can_handoff_to) none .full_history .full_history
  let workflow_agents := supervisor :: agents.map fun agent =>
    let always_handoff_to := if !is_router then [supervisor_name] else []
    if agents_as_tools then
      agent.copy (some always_handoff_to) .tool_call .tool_response
    else
      agent.copy (some always_handoff_to) .full_history .last_message
  create_multi_agent_workflow workflow_agents

/-- Identifier-based merge rule of `SharedState`.  Modelled from the spec:
the `add_messages` reducer of the external engine (spec sections 3, 6 and 9)
— appending a message whose identifier matches the identifier of an existing
message replaces that message in place, preserving order; otherwise the
message is appended.  Messages without an identifier never match (the real
reducer assigns fresh unique ids to id-less messages before comparing). -/
def mergeMessages (existing new : List Message) : List Message :=
  new.foldl (fun acc m =>
    if m.id.isSome && acc.any (fun e => decide (e.id = m.id)) then
      acc.map fun e => if e.id = m.id then m else e
    else
      acc ++ [m]) existing

end LangGraphMultiAgent

namespace MultiAgentSupervisorModule

open LangGraphMultiAgent

/-- A compiled agent graph handed to
`langgraph_multi_agent_supervisor.create_supervisor`: its (optional) `name`
and its `invoke` surface. -/
structure NamedGraph where
  name : Option String
  invoke : MessagesState → MessagesState

/-- `OutputMode = Literal["full_history", "last_message"]`. -/
inductive OutputMode where
  | full_history
  | last_message
  deriving DecidableEq, Repr

/-- Modelled from the spec: `create_handoff_back_messages` lives in the
module `langgraph_multi_agent_supervisor.handoff`, which is not present in
the source tree; per the `create_supervisor` docstring it produces "a pair of
(AIMessage, ToolMessage) to the message history when returning control to the
supervisor to indicate that a handoff has occurred".  Only that shape is
specified; the contents are uninterpreted here. -/
def create_handoff_back_messages (agent_name supervisor_name : String) :
    List Message :=
  [ { type := .ai, content := agent_name },
    { type := .tool, content := supervisor_name } ]

/-- Python's `messages[-1:]`: the last element as a (possibly empty) list. -/
def lastSlice {α : Type} (l : List α) : List α :=
  l.drop (l.length - 1)

/-- The `call_agent` closure produced by `_make_call_agent`.  The up-front
and in-loop mode checks of the source are unreachable here because
`OutputMode` is the closed `Literal` type. -/
def makeCallAgent (agent : NamedGraph) (agent_output_mode : OutputMode)
    (add_handoff_back_messages : Bool) (supervisor_name : String)
    (state : MessagesState) : MessagesState :=
  let output := agent.invoke state
  let messages := match agent_output_mode with
    | .full_history => output.messages
    | .last_message => lastSlice output.messages
  let messages := if add_handoff_back_messages then
      messages ++ create_handoff_back_messages (agent.name.getD "") supervisor_name
    else messages
  { messages := messages }

/-- The name-validation loop at the head of
`langgraph_multi_agent_supervisor.create_supervisor`, with the accumulating
`agent_names` set made explicit: a missing or default (`"LangGraph"`) name
and a repeated name are distinct errors. -/
def validateAgentNamesAux : List String → List NamedGraph → Except AgentError Unit
  | _, [] => pure ()
  | seen, g :: rest =>
    match g.name with
    | none => throw .unnamedAgent
    | some n =>
      if n = "LangGraph" then throw .unnamedAgent
      else if n ∈ seen then throw (.duplicateAgentName n)
      else validateAgentNamesAux (n :: seen) rest

/-- `langgraph_multi_agent_supervisor.create_supervisor`, restricted to the
graph topology it registers: validate the agent names, add the supervisor
node and its entry edge, then one node per agent and — unless `is_router` —
an edge from each agent back to the supervisor.  (After validation every
`agent.name` is `some`, so `getD ""` is never exercised.) -/
def create_supervisor (agents : List NamedGraph)
    (is_router : Bool)
    (supervisor_name : String) :
    Except AgentError StateGraph := do
  validateAgentNamesAux [] agents
  pure
    { nodes := supervisor_name :: agents.map fun g => g.name.getD ""
      edges := (START, supervisor_name) :: agents.flatMap fun g =>
        if !is_router then [(g.name.getD "", supervisor_name)] else [] }

end MultiAgentSupervisorModule

open LangGraphMultiAgent

/-! ## Concrete sample data (used by witnesses and counterexamples) -/

/-- A sample human message. -/
def sampleHuman : Message := { type := .human, content := "hi" }

/-- The tool call of spec Scenario B: `transfer_to_billing(task_description="refund request")`. -/
def sampleToolCallB : ToolCall :=
  { name := "transfer_to_billing"
    args := [("task_description", "refund request")]
    id := "call1" }

/-- The AI message carrying the Scenario B tool call. -/
def sampleAiB : Message := { type := .ai, content := "", tool_calls := [sampleToolCallB] }

/-- The placeholder tool message produced by the Scenario B handoff. -/
def sampleToolB : Message :=
  { type := .tool
    content := "Successfully transferred to billing"
    id := some "tm1"
    name := some "transfer_to_billing"
    tool_call_id := some "call1" }

/-- An AI message with no tool calls at all. -/
def sampleAiNoToolCalls : Message := { type := .ai, content := "" }

/-- A handoff tool call whose arguments lack `task_description`. -/
def sampleToolCallNoTask : ToolCall :=
  { name := "transfer_to_billing", args := [], id := "call2" }

/-- An AI message whose single tool call lacks `task_description`. -/
def sampleAiNoTask : Message :=
  { type := .ai, content := "", tool_calls := [sampleToolCallNoTask] }

/-- A trivial underlying capability. -/
def echoAgent : MessagesState → MessagesState := fun s => s

/-- A plain (non-tool-calling) agent whose `always_handoff_to` names an
agent `"Z"` that exists nowhere. -/
def agentAlwaysZ : LangGraphAgent :=
  { name := "A", agent := echoAgent, always_handoff_to := some ["Z"] }

/-- A tool-calling agent declaring a handoff to the non-existent `"Z"`. -/
def toolAgentHandoffZ : LangGraphAgent :=
  { name := "A", agent := echoAgent, toolCalling := some (some [.ofName "Z"]) }

/-- A plain agent named `"B"`. -/
def plainAgentB : LangGraphAgent := { name := "B", agent := echoAgent }

/-- A tool-calling agent declaring a handoff to the existing `"B"`. -/
def toolAgentHandoffB : LangGraphAgent :=
  { name := "A", agent := echoAgent, toolCalling := some (some [.ofName "B"]) }

/-- A plain `LangGraphAgent` wired with `tool_response` output but
`full_history` input — the combination the spec says is never accepted. -/
def badToolResponseAgent : LangGraphAgent :=
  { name := "A", agent := echoAgent, agent_output_strategy := .tool_response }

/-- Two distinct agent nodes sharing the name `"A"`. -/
def dupAgents : List LangGraphAgent :=
  [{ name := "A", agent := echoAgent },
   { name := "A", agent := echoAgent, is_entrypoint := true }]

/-- A sample worker agent for the supervisor assembly. -/
def sampleWorker : LangGraphAgent := { name := "worker", agent := echoAgent }

/-- Two compiled worker graphs sharing the name `"x"`. -/
def dupNamedGraphs : List MultiAgentSupervisorModule.NamedGraph :=
  [{ name := some "x", invoke := fun s => s },
   { name := some "x", invoke := fun s => s }]

/-- A sample compiled worker graph for the supervisor module. -/
def sampleNamedW : MultiAgentSupervisorModule.NamedGraph :=
  { name := some "w", invoke := fun _ => ⟨[sampleHuman]⟩ }

/-! ## Helper lemmas -/

lemma get_append_two_penult {α : Type} (ms : List α) (a t : α)
    (h : (ms ++ [a, t]).length - 2 < (ms ++ [a, t]).length) :
    (ms ++ [a, t]).get ⟨(ms ++ [a, t]).length - 2, h⟩ = a := by
  have hidx : (ms ++ [a, t]).length - 2 = ms.length := by simp
  simp only [List.get_eq_getElem]
  rw [List.getElem_append_right (by omega)]
  simp [hidx]

lemma get_append_two_last {α : Type} (ms : List α) (a t : α)
    (h : (ms ++ [a, t]).length - 1 < (ms ++ [a, t]).length) :
    (ms ++ [a, t]).get ⟨(ms ++ [a, t]).length - 1, h⟩ = t := by
  have hidx : (ms ++ [a, t]).length - 1 = ms.length + 1 := by simp
  simp only [List.get_eq_getElem]
  rw [List.getElem_append_right (by omega)]
  simp [hidx]

lemma exceptBindOk {ε α β : Type} (u : α) (g : α → Except ε β) :
    (Bind.bind (Except.ok u) g) = g u := rfl

lemma exceptBindError {ε α β : Type} (e : ε) (g : α → Except ε β) :
    (Bind.bind (Except.error e) g) = Except.error e := rfl

lemma exceptForM_ok {ε α : Type} {l : List α} {f : α → Except ε Unit}
    (h : exceptForM l f = .ok ()) : ∀ x ∈ l, f x = .ok () := by
  induction l with
  | nil => intro x hx; cases hx
  | cons y ys ih =>
    intro x hx
    rw [exceptForM] at h
    cases hf : f y with
    | error e => rw [hf, exceptBindError] at h; cases h
    | ok u =>
      rw [hf, exceptBindOk] at h
      cases hx with
      | head => cases u; exact hf
      | tail _ hx => exact ih h x hx

lemma exceptForM_error {ε α : Type} {l : List α} {f : α → Except ε Unit}
    {x : α} {e : ε} (hx : x ∈ l) (hf : f x = .error e) :
    ∃ e', exceptForM l f = .error e' := by
  induction l with
  | nil => cases hx
  | cons y ys ih =>
    rw [exceptForM]
    cases hfy : f y with
    | error e' => exact ⟨e', by rw [exceptBindError]⟩
    | ok u =>
      cases hx with
      | head => rw [hf] at hfy; cases hfy
      | tail _ hx =>
        rcases ih hx with ⟨e', he'⟩
        exact ⟨e', by rw [exceptBindOk, he']⟩

/-- Behaviour of the `tool_call` input adapter on a state whose last two
messages are `a` and `t`: the length check passes and all remaining checks
are expressed on `a`, `t` directly. -/
lemma getInputToolCall_append (ms : List Message) (a t : Message)
    (agent_name : String) :
    getAgentInputFromToolCall ⟨ms ++ [a, t]⟩ agent_name =
      if a.type ≠ .ai ∨ t.type ≠ .tool then .error .lastTwoNotAiAndTool
      else
        match a.tool_calls with
        | [tool_call] =>
          if ¬ strIn agent_name tool_call.name then
            .error (.wrongToolCallName tool_call.name)
          else
            match tool_call.args.lookup "task_description" with
            | none => .error .missingTaskDescription
            | some task_description =>
              .ok ⟨[{ type := .human, content := task_description,
                      additional_kwargs :=
                        some ⟨tool_call.id, tool_call.name, t.id⟩ }]⟩
        | tcs => .error (.notExactlyOneToolCall tcs.length) := by
  unfold getAgentInputFromToolCall
  rw [dif_neg (by simp)]
  rw [get_append_two_penult, get_append_two_last]
  rfl

lemma lastSlice_eq_getLast {α : Type} (l : List α) (h : l ≠ []) :
    MultiAgentSupervisorModule.lastSlice l = [l.getLast h] := by
  unfold MultiAgentSupervisorModule.lastSlice
  induction l with
  | nil => simp at h
  | cons a t ih =>
    cases t with
    | nil => simp
    | cons b t2 => simpa using ih (by simp)

/-! ## Claim theorems -/

/-- C1: for every `LangGraphAgent` and every shared state, `invoke` equals
the configured output adapter applied to the result of the underlying
capability on the result of the configured input adapter applied to the
shared state (in the `Except` monad, since both adapters may fail). -/
theorem C1_invoke_is_adapter_composition (a : LangGraphAgent)
    (shared_state : MessagesState) :
    a.invoke shared_state =
      (getAgentInput a.agent_input_strategy a.name shared_state).bind
        fun adapted => getAgentOutput a.agent_output_strategy (a.agent adapted) :=
  rfl

/-- C6: for every non-empty agent output sequence, the `last_message` output
strategy yields a state update of exactly one message, equal to the last
element of the raw output — both in `LangGraphAgent._get_agent_output` and in
the `last_message` slicing of `_make_call_agent` (with the separate
handoff-back extension disabled). -/
theorem C6_last_message_yields_last (output : MessagesState)
    (h : output.messages ≠ []) :
    getAgentOutput .last_message output =
      .ok { messages := .single (output.messages.getLast h) } ∧
    (MessagesValue.single (output.messages.getLast h)).toList =
      [output.messages.getLast h] ∧
    (∀ (g : MultiAgentSupervisorModule.NamedGraph) (supervisor_name : String)
       (state : MessagesState) (h2 : (g.invoke state).messages ≠ []),
       MultiAgentSupervisorModule.makeCallAgent g .last_message false
         supervisor_name state = ⟨[(g.invoke state).messages.getLast h2]⟩) := by
  refine ⟨?_, rfl, ?_⟩
  · unfold getAgentOutput
    rw [List.getLast?_eq_getLast output.messages h]
    rfl
  · intro g supervisor_name state h2
    unfold MultiAgentSupervisorModule.makeCallAgent
    simp [lastSlice_eq_getLast _ h2]

/-- C6 witness: a concrete one-message output. -/
theorem C6_witness :
    getAgentOutput .last_message ⟨[sampleHuman]⟩ =
      .ok { messages := .single sampleHuman } ∧
    MultiAgentSupervisorModule.makeCallAgent sampleNamedW .last_message false
      "supervisor" ⟨[]⟩ = ⟨[sampleHuman]⟩ := by
  have h := C6_last_message_yields_last ⟨[sampleHuman]⟩ (by simp)
  exact ⟨h.1, h.2.2 sampleNamedW "supervisor" ⟨[]⟩ (by simp [sampleNamedW])⟩

/-- C7: for every handoff config without task description, the created tool
is named `transfer_to_<target>` and invoking it returns a `Command` routing
to the target in the parent graph whose update is exactly one tool message
with content `"Successfully transferred to <target>"`; the command is a pure
function of the config and the injected call id, so invoking the tool never
calls the target agent. -/
theorem C7_handoff_tool_without_task (handoff_config : HandoffConfig)
    (h : handoff_config.create_task_description = false) :
    (create_handoff_tool handoff_config).name =
      "transfer_to_" ++ handoff_config.agent_name ∧
    ∃ f, (create_handoff_tool handoff_config).fn = .noTask f ∧
      ∀ tool_call_id, f tool_call_id =
        { goto := handoff_config.agent_name
          graph := .parent
          update := ⟨[{ type := .tool
                        content := "Successfully transferred to " ++
                          handoff_config.agent_name
                        name := some ("transfer_to_" ++ handoff_config.agent_name)
                        tool_call_id := some tool_call_id }]⟩ } := by
  obtain ⟨agent_name, ctd⟩ := handoff_config
  subst h
  exact ⟨rfl, _, rfl, fun _ => rfl⟩

/-- C7 witness: the `billing` handoff target. -/
theorem C7_witness :
    (create_handoff_tool { agent_name := "billing" }).name = "transfer_to_billing" ∧
    ∃ f, (create_handoff_tool { agent_name := "billing" }).fn = .noTask f ∧
      ∀ tool_call_id, f tool_call_id =
        { goto := "billing"
          graph := .parent
          update := ⟨[{ type := .tool
                        content := "Successfully transferred to billing"
                        name := some "transfer_to_billing"
                        tool_call_id := some tool_call_id }]⟩ } :=
  C7_handoff_tool_without_task { agent_name := "billing" } rfl

/-- C10: a `ToolCallingAgent` with `last_message` output and a non-empty
(truthy) `can_handoff_to` list is rejected at construction time. -/
theorem C10_last_message_with_handoffs_rejected (name : String)
    (react_agent : MessagesState → MessagesState) (is_entrypoint : Bool)
    (can_handoff_to : Option (List HandoffSpec))
    (always_handoff_to : Option (List String))
    (agent_input_strategy : AgentInputStrategy)
    (h : truthyList can_handoff_to = true) :
    ToolCallingAgent.make name react_agent is_entrypoint can_handoff_to
      always_handoff_to agent_input_strategy .last_message =
      .error .lastMessageWithHandoffs := by
  unfold ToolCallingAgent.make
  rw [if_neg (by simp), if_pos (by simp [h])]
  rfl

/-- C10 witness: a worker with one handoff target and `last_message` output. -/
theorem C10_witness :
    ToolCallingAgent.make "worker" echoAgent false (some [.ofName "B"]) none
      .full_history .last_message = .error .lastMessageWithHandoffs :=
  C10_last_message_with_handoffs_rejected "worker" echoAgent false
    (some [.ofName "B"]) none .full_history (by decide)

/-- C5 counterexample: the claim assigns precondition (2) ("second-to-last is
AI-originated with exactly one tool invocation") and precondition (3) ("last
is a tool-result message") distinct failures, but the code reports a
violation of either through one and the same error: a state whose
second-to-last message is not AI (first conjunct) and a state whose
second-to-last message is a perfectly well-formed AI handoff but whose last
message is not a tool message (second conjunct) produce the identical error
value. -/
theorem C5_counterexample :
    getAgentInputFromToolCall ⟨[sampleHuman, sampleToolB]⟩ "billing" =
      .error .lastTwoNotAiAndTool ∧
    getAgentInputFromToolCall ⟨[sampleAiB, sampleHuman]⟩ "billing" =
      .error .lastTwoNotAiAndTool := by
  decide

/-- C5 (amended): the `tool_call` input adapter performs five sequential
checks, each with its own distinct error: (1) at least two messages; (2) the
second-to-last message is AI-typed AND the last is tool-typed (one combined
check with one shared error); (3) the AI message has exactly one tool call;
(4) the tool call's name contains the agent name; (5) the tool call's
arguments contain `task_description`.  The five errors are pairwise
distinct. -/
theorem C5_five_checks_distinct_errors :
    (∀ (input : MessagesState) (agent_name : String),
       input.messages.length < 2 →
       getAgentInputFromToolCall input agent_name = .error .notEnoughMessages) ∧
    (∀ (ms : List Message) (a t : Message) (agent_name : String),
       a.type ≠ .ai ∨ t.type ≠ .tool →
       getAgentInputFromToolCall ⟨ms ++ [a, t]⟩ agent_name =
         .error .lastTwoNotAiAndTool) ∧
    (∀ (ms : List Message) (a t : Message) (agent_name : String),
       a.type = .ai → t.type = .tool → a.tool_calls.length ≠ 1 →
       getAgentInputFromToolCall ⟨ms ++ [a, t]⟩ agent_name =
         .error (.notExactlyOneToolCall a.tool_calls.length)) ∧
    (∀ (ms : List Message) (a t : Message) (agent_name : String) (tc : ToolCall),
       a.type = .ai → t.type = .tool → a.tool_calls = [tc] →
       strIn agent_name tc.name = false →
       getAgentInputFromToolCall ⟨ms ++ [a, t]⟩ agent_name =
         .error (.wrongToolCallName tc.name)) ∧
    (∀ (ms : List Message) (a t : Message) (agent_name : String) (tc : ToolCall),
       a.type = .ai → t.type = .tool → a.tool_calls = [tc] →
       strIn agent_name tc.name = true →
       tc.args.lookup "task_description" = none →
       getAgentInputFromToolCall ⟨ms ++ [a, t]⟩ agent_name =
         .error .missingTaskDescription) ∧
    (∀ (n : Nat) (s : String),
       List.Pairwise (· ≠ ·)
         [AgentError.notEnoughMessages, .lastTwoNotAiAndTool,
          .notExactlyOneToolCall n, .wrongToolCallName s,
          .missingTaskDescription]) := by
  refine ⟨?_, ?_, ?_, ?_, ?_, ?_⟩
  · intro input agent_name h
    unfold getAgentInputFromToolCall
    rw [dif_pos h]
    rfl
  · intro ms a t agent_name h
    rw [getInputToolCall_append, if_pos h]
  · intro ms a t agent_name ha ht hn
    rw [getInputToolCall_append, if_neg (by simp [ha, ht])]
    rcases hl : a.tool_calls with _ | ⟨x, _ | ⟨y, l⟩⟩
    · rfl
    · rw [hl] at hn; exact absurd rfl hn
    · rfl
  · intro ms a t agent_name tc ha ht htc hname
    rw [getInputToolCall_append, if_neg (by simp [ha, ht]), htc]
    simp [hname]
  · intro ms a t agent_name tc ha ht htc hname hargs
    rw [getInputToolCall_append, if_neg (by simp [ha, ht]), htc]
    simp [hname, hargs]
  · intro n s
    simp

/-- C5 witness: five concrete inputs, one per check, each hitting its own
error. -/
theorem C5_witness :
    getAgentInputFromToolCall ⟨[sampleHuman]⟩ "billing" =
      .error .notEnoughMessages ∧
    getAgentInputFromToolCall ⟨[sampleHuman, sampleToolB]⟩ "billing" =
      .error .lastTwoNotAiAndTool ∧
    getAgentInputFromToolCall ⟨[sampleAiNoToolCalls, sampleToolB]⟩ "billing" =
      .error (.notExactlyOneToolCall 0) ∧
    getAgentInputFromToolCall ⟨[sampleAiB, sampleToolB]⟩ "flights" =
      .error (.wrongToolCallName "transfer_to_billing") ∧
    getAgentInputFromToolCall ⟨[sampleAiNoTask, sampleToolB]⟩ "billing" =
      .error .missingTaskDescription := by
  refine ⟨?_, ?_, ?_, ?_, ?_⟩
  · exact C5_five_checks_distinct_errors.1 ⟨[sampleHuman]⟩ "billing" (by decide)
  · exact C5_five_checks_distinct_errors.2.1 [] sampleHuman sampleToolB "billing"
      (Or.inl (by decide))
  · exact C5_five_checks_distinct_errors.2.2.1 [] sampleAiNoToolCalls sampleToolB
      "billing" rfl rfl (by decide)
  · exact C5_five_checks_distinct_errors.2.2.2.1 [] sampleAiB sampleToolB "flights"
      sampleToolCallB rfl rfl rfl (by decide)
  · exact C5_five_checks_distinct_errors.2.2.2.2.1 [] sampleAiNoTask sampleToolB
      "billing" sampleToolCallNoTask rfl rfl rfl (by decide) rfl

/-- C2: round-trip of the agent-as-tool pattern.  For a state ending in an
AI message `a` with exactly one tool call naming the agent and carrying a
`task_description`, followed by a tool-result placeholder `t` (carrying the
identifier `tid` the merge rule matches on, unique in the state), the
`tool_call` input adapter extracts exactly the supplied task description, and
for any agent output beginning with that synthetic message the
`tool_response` output adapter produces a tool message whose identifier is
the placeholder's and whose content is the last output message's content, so
the identifier-based merge replaces the placeholder without changing the
state's length. -/
theorem C2_agent_as_tool_roundtrip
    (ms : List Message) (a t : Message) (agent_name : String) (tc : ToolCall)
    (task_description : String) (tid : String)
    (ha : a.type = .ai) (ht : t.type = .tool) (htc : a.tool_calls = [tc])
    (hname : strIn agent_name tc.name = true)
    (htd : tc.args.lookup "task_description" = some task_description)
    (hid : t.id = some tid)
    (hfresh : ∀ m ∈ ms, m.id ≠ some tid) (hafresh : a.id ≠ some tid) :
    ∃ hm : Message,
      getAgentInputFromToolCall ⟨ms ++ [a, t]⟩ agent_name = .ok ⟨[hm]⟩ ∧
      hm.content = task_description ∧
      hm.additional_kwargs = some ⟨tc.id, tc.name, some tid⟩ ∧
      ∀ rest : List Message, ∃ tr : Message,
        getAgentOutputAsToolResponse ⟨hm :: rest⟩ = .ok ⟨[tr]⟩ ∧
        tr.id = some tid ∧
        tr.content = ((hm :: rest).getLast (List.cons_ne_nil hm rest)).content ∧
        mergeMessages (ms ++ [a, t]) [tr] = ms ++ [a, tr] ∧
        (mergeMessages (ms ++ [a, t]) [tr]).length = (ms ++ [a, t]).length := by
  refine ⟨{ type := .human, content := task_description,
            additional_kwargs := some ⟨tc.id, tc.name, t.id⟩ }, ?_, rfl,
          by rw [hid], ?_⟩
  · rw [getInputToolCall_append, if_neg (by simp [ha, ht]), htc]
    simp [hname, htd]
  · intro rest
    have key : ∀ content0 : String,
        mergeMessages (ms ++ [a, t])
          [{ type := .tool, content := content0, id := t.id,
             name := some tc.name, tool_call_id := some tc.id }] =
          ms ++ [a,
            { type := .tool, content := content0, id := t.id,
              name := some tc.name, tool_call_id := some tc.id }] ∧
        (mergeMessages (ms ++ [a, t])
          [{ type := .tool, content := content0, id := t.id,
             name := some tc.name, tool_call_id := some tc.id }]).length =
          (ms ++ [a, t]).length := by
      intro content0
      have heq : mergeMessages (ms ++ [a, t])
          [{ type := .tool, content := content0, id := t.id,
             name := some tc.name, tool_call_id := some tc.id }] =
          ms ++ [a,
            { type := .tool, content := content0, id := t.id,
              name := some tc.name, tool_call_id := some tc.id }] := by
        unfold mergeMessages
        rw [List.foldl_cons, List.foldl_nil,
          if_pos (by
            rw [Bool.and_eq_true]
            refine ⟨by rw [hid]; rfl, ?_⟩
            rw [List.any_append, Bool.or_eq_true]
            right
            simp)]
        rw [List.map_append]
        congr 1
        · conv_rhs => rw [← List.map_id ms]
          refine List.map_congr_left fun m hm => ?_
          simp only [id]
          rw [if_neg (by rw [hid]; exact hfresh m hm)]
        · simp only [List.map_cons, List.map_nil]
          rw [if_neg (by rw [hid]; exact hafresh)]
          simp
      exact ⟨heq, by rw [heq]; simp⟩
    refine ⟨_, rfl, hid, rfl, (key _).1, (key _).2⟩

/-- C2 witness: spec Scenarios B and C — `transfer_to_billing` with
`task_description = "refund request"`, placeholder id `"tm1"`, agent answer
`"Refund processed"`. -/
theorem C2_witness :
    ∃ hm : Message,
      getAgentInputFromToolCall ⟨[sampleAiB, sampleToolB]⟩ "billing" =
        .ok ⟨[hm]⟩ ∧
      hm.content = "refund request" ∧
      hm.additional_kwargs =
        some ⟨"call1", "transfer_to_billing", some "tm1"⟩ ∧
      ∀ rest : List Message, ∃ tr : Message,
        getAgentOutputAsToolResponse ⟨hm :: rest⟩ = .ok ⟨[tr]⟩ ∧
        tr.id = some "tm1" ∧
        tr.content = ((hm :: rest).getLast (List.cons_ne_nil hm rest)).content ∧
        mergeMessages [sampleAiB, sampleToolB] [tr] = [sampleAiB, tr] ∧
        (mergeMessages [sampleAiB, sampleToolB] [tr]).length =
          ([sampleAiB, sampleToolB] : List Message).length := by
  have h := C2_agent_as_tool_roundtrip [] sampleAiB sampleToolB "billing"
    sampleToolCallB "refund request" "tm1" rfl rfl rfl (by decide) rfl rfl
    (by intro m hm; cases hm) (by decide)
  simpa using h

lemma addAgentToGraph_eq (g : StateGraph) (a : LangGraphAgent) :
    addAgentToGraph g a =
      ⟨g.nodes ++ [a.name], g.edges ++ agentStaticEdges a⟩ := by
  unfold addAgentToGraph agentStaticEdges
  by_cases h1 : a.is_entrypoint <;>
    by_cases h2 : truthyList a.always_handoff_to <;>
    simp [h1, h2]

lemma foldl_addAgentToGraph (agents : List LangGraphAgent) (g : StateGraph) :
    agents.foldl addAgentToGraph g =
      ⟨g.nodes ++ agents.map (fun a => a.name),
       g.edges ++ agents.flatMap agentStaticEdges⟩ := by
  induction agents generalizing g with
  | nil => cases g; simp
  | cons a rest ih =>
    rw [List.foldl_cons, addAgentToGraph_eq, ih]
    simp

lemma create_workflow_ok {agents : List LangGraphAgent} {g : StateGraph}
    (h : create_multi_agent_workflow agents = .ok g) :
    validateAgentHandoffs (agentNameToAgent agents) = .ok () ∧
    g.nodes = agents.map (fun a => a.name) ∧
    g.edges = agents.flatMap agentStaticEdges := by
  simp only [create_multi_agent_workflow] at h
  cases hv : validateAgentHandoffs (agentNameToAgent agents) with
  | error e => rw [hv, exceptBindError] at h; cases h
  | ok u =>
    cases u
    rw [hv, exceptBindOk] at h
    have hg := Except.ok.inj h
    rw [foldl_addAgentToGraph] at hg
    refine ⟨rfl, ?_, ?_⟩ <;> rw [← hg] <;> simp

lemma dictGet_append {α : Type} (d1 d2 : List (String × α)) (k : String) :
    dictGet (d1 ++ d2) k =
      match dictGet d1 k with
      | some v => some v
      | none => dictGet d2 k := by
  induction d1 with
  | nil => rfl
  | cons p rest ih =>
    obtain ⟨k', v⟩ := p
    by_cases h : k' = k
    · simp [dictGet, h]
    · simp [dictGet, h, ih]

lemma dictGet_isSome_replace {α : Type} (d : List (String × α)) (n : String)
    (v : α) (k : String)
    (h : (dictGet (d.map fun p => if p.1 = n then (n, v) else p) k).isSome = true) :
    k = n ∨ (dictGet d k).isSome = true := by
  induction d with
  | nil => simp [dictGet] at h
  | cons p rest ih =>
    obtain ⟨k', v'⟩ := p
    rw [List.map_cons] at h
    by_cases h1 : k' = n
    · subst h1
      by_cases h2 : k' = k
      · exact Or.inl h2.symm
      · simp only [if_pos rfl] at h
        simp only [dictGet, if_neg h2] at h
        rcases ih h with h' | h'
        · exact Or.inl h'
        · right
          simpa [dictGet, h2] using h'
    · by_cases h2 : k' = k
      · right
        simp [dictGet, h2]
      · simp only [if_neg (show ¬ ((k', v').1 = n) from h1)] at h
        simp only [dictGet, if_neg h2] at h
        rcases ih h with h' | h'
        · exact Or.inl h'
        · right
          simpa [dictGet, h2] using h'

lemma dictGet_isSome_dictInsert {α : Type} (d : List (String × α)) (n : String)
    (v : α) (k : String)
    (h : (dictGet (dictInsert d n v) k).isSome = true) :
    k = n ∨ (dictGet d k).isSome = true := by
  unfold dictInsert at h
  by_cases hc : d.any (fun p => p.1 = n)
  · rw [if_pos hc] at h
    exact dictGet_isSome_replace d n v k h
  · rw [if_neg hc, dictGet_append] at h
    cases hd : dictGet d k with
    | some w => exact Or.inr rfl
    | none =>
      rw [hd] at h
      by_cases h2 : n = k
      · exact Or.inl h2.symm
      · simp [dictGet, h2] at h

lemma dictGet_foldl_isSome (agents : List LangGraphAgent) (k : String) :
    ∀ d : List (String × LangGraphAgent),
      (dictGet (agents.foldl (fun d a => dictInsert d a.name a) d) k).isSome = true →
      (dictGet d k).isSome = true ∨ k ∈ agents.map fun a => a.name := by
  induction agents with
  | nil => intro d hd; exact Or.inl hd
  | cons a rest ih =>
    intro d hd
    rw [List.foldl_cons] at hd
    rcases ih (dictInsert d a.name a) hd with h' | h'
    · rcases dictGet_isSome_dictInsert d a.name a k h' with h2 | h2
      · rw [h2]
        exact Or.inr (by simp)
      · exact Or.inl h2
    · exact Or.inr (by simp [h'])

lemma mem_names_of_dictGet_isSome (agents : List LangGraphAgent) (k : String)
    (h : (dictGet (agentNameToAgent agents) k).isSome = true) :
    k ∈ agents.map fun a => a.name := by
  rcases dictGet_foldl_isSome agents k [] h with h' | h'
  · simp [dictGet] at h'
  · exact h'

lemma foldl_dictInsert_of_nodup (agents : List LangGraphAgent) :
    ∀ d : List (String × LangGraphAgent),
      (∀ a ∈ agents, d.any (fun p => p.1 = a.name) = false) →
      (agents.map fun a => a.name).Nodup →
      agents.foldl (fun d a => dictInsert d a.name a) d =
        d ++ agents.map fun a => (a.name, a) := by
  induction agents with
  | nil => intro d _ _; simp
  | cons a rest ih =>
    intro d hd hnd
    rw [List.map_cons, List.nodup_cons] at hnd
    rw [List.foldl_cons]
    have hins : dictInsert d a.name a = d ++ [(a.name, a)] := by
      unfold dictInsert
      rw [if_neg (by rw [hd a (by simp)]; exact Bool.false_ne_true)]
    rw [hins, ih (d ++ [(a.name, a)]) ?_ hnd.2, List.append_assoc]
    · simp
    · intro b hb
      rw [List.any_append, hd b (by simp [hb])]
      have hne : a.name ≠ b.name := fun hcontra =>
        hnd.1 (hcontra ▸ List.mem_map_of_mem (fun a => a.name) hb)
      simp [hne]

lemma agentNameToAgent_of_nodup (agents : List LangGraphAgent)
    (h : (agents.map fun a => a.name).Nodup) :
    agentNameToAgent agents = agents.map fun a => (a.name, a) := by
  rw [show agentNameToAgent agents =
        agents.foldl (fun d a => dictInsert d a.name a) [] from rfl,
      foldl_dictInsert_of_nodup agents [] (fun a _ => rfl) h]
  simp

lemma validateAux_ok_or_duplicate (agents : List MultiAgentSupervisorModule.NamedGraph) :
    ∀ seen : List String,
      (∀ g ∈ agents, ∃ n, g.name = some n ∧ n ≠ "LangGraph") →
      MultiAgentSupervisorModule.validateAgentNamesAux seen agents = .ok () ∨
      ∃ n, MultiAgentSupervisorModule.validateAgentNamesAux seen agents =
        .error (.duplicateAgentName n) := by
  induction agents with
  | nil => intro seen _; exact Or.inl rfl
  | cons g rest ih =>
    intro seen hvalid
    obtain ⟨n, hn, hL⟩ := hvalid g (by simp)
    simp only [MultiAgentSupervisorModule.validateAgentNamesAux, hn]
    rw [if_neg hL]
    by_cases hm : n ∈ seen
    · rw [if_pos hm]
      exact Or.inr ⟨n, rfl⟩
    · rw [if_neg hm]
      exact ih (n :: seen) fun g' hg' => hvalid g' (by simp [hg'])

lemma validateAux_ok_nodup (agents : List MultiAgentSupervisorModule.NamedGraph) :
    ∀ seen : List String,
      MultiAgentSupervisorModule.validateAgentNamesAux seen agents = .ok () →
      (agents.map fun g => g.name).Nodup ∧
      ∀ g ∈ agents, ∀ n, g.name = some n → n ∉ seen := by
  induction agents with
  | nil =>
    intro seen _
    exact ⟨by simp, by intro g hg; cases hg⟩
  | cons g rest ih =>
    intro seen h
    cases hn : g.name with
    | none =>
      simp only [MultiAgentSupervisorModule.validateAgentNamesAux, hn] at h
      cases h
    | some n =>
      simp only [MultiAgentSupervisorModule.validateAgentNamesAux, hn] at h
      by_cases hL : n = "LangGraph"
      · rw [if_pos hL] at h; cases h
      · rw [if_neg hL] at h
        by_cases hm : n ∈ seen
        · rw [if_pos hm] at h; cases h
        · rw [if_neg hm] at h
          obtain ⟨hnd, hseen⟩ := ih (n :: seen) h
          refine ⟨?_, ?_⟩
          · rw [List.map_cons, List.nodup_cons, hn]
            refine ⟨?_, hnd⟩
            intro hmem
            obtain ⟨g', hg', hname⟩ := List.mem_map.mp hmem
            exact hseen g' hg' n hname (by simp)
          · intro g' hg' n' hn'
            cases hg' with
            | head =>
              rw [hn] at hn'
              cases hn'
              exact hm
            | tail _ htl =>
              intro hcontra
              exact hseen g' htl n' hn' (by simp [hcontra])

/-- C3 counterexample: a workflow whose only agent lists the non-existent
`"Z"` in `always_handoff_to` builds successfully, and the resulting graph
carries an edge to `"Z"` although `"Z"` is not one of its vertices — the
builder validates declared handoff targets but never `always_handoff_to`. -/
theorem C3_counterexample :
    create_multi_agent_workflow [agentAlwaysZ] =
      .ok { nodes := ["A"], edges := [("A", "Z")] } ∧
    ("A", "Z") ∈ ({ nodes := ["A"], edges := [("A", "Z")] } : StateGraph).edges ∧
    "Z" ∉ ({ nodes := ["A"], edges := [("A", "Z")] } : StateGraph).nodes := by
  refine ⟨by decide, by decide, by decide⟩

/-- C3 (amended): in every successfully built workflow, every handoff target
declared by a tool-calling node (as recorded in the name-keyed table)
resolves to an entry of the table and hence to a vertex of the graph; if any
declared handoff target is absent from the table, building fails (with the
unknown-target error naming source and target when that check is the first
to fire, as in the concrete Scenario D instance of the last conjunct);
`always_handoff_to` entries, however, are never validated. -/
theorem C3_handoff_target_validation :
    (∀ (agents : List LangGraphAgent) (g : StateGraph),
       create_multi_agent_workflow agents = .ok g →
       ∀ p ∈ agentNameToAgent agents, ∀ cht, p.2.toolCalling = some cht →
       truthyList cht = true →
       ∀ spec ∈ cht.getD [],
         ∃ target,
           dictGet (agentNameToAgent agents) spec.toConfig.agent_name = some target ∧
           spec.toConfig.agent_name ∈ g.nodes) ∧
    (∀ agents : List LangGraphAgent,
       (∃ p ∈ agentNameToAgent agents, ∃ cht, p.2.toolCalling = some cht ∧
          truthyList cht = true ∧ ∃ spec ∈ cht.getD [],
            dictGet (agentNameToAgent agents) spec.toConfig.agent_name = none) →
       ∃ e, create_multi_agent_workflow agents = .error e) ∧
    create_multi_agent_workflow [toolAgentHandoffZ] =
      .error (.unknownHandoffTarget "A" "Z") := by
  refine ⟨?_, ?_, ?_⟩
  · intro agents g hok p hp cht hcht htruthy spec hspec
    obtain ⟨hval, hnodes, _⟩ := create_workflow_ok hok
    have h1 := exceptForM_ok hval p hp
    simp only [validateOneAgentHandoffs, hcht, htruthy] at h1
    have h2 := exceptForM_ok h1 spec hspec
    cases hdg : dictGet (agentNameToAgent agents) spec.toConfig.agent_name with
    | none =>
      rw [hdg] at h2
      cases h2
    | some target =>
      refine ⟨target, rfl, ?_⟩
      rw [hnodes]
      exact mem_names_of_dictGet_isSome agents _ (by rw [hdg]; rfl)
  · intro agents ⟨p, hp, cht, hcht, htruthy, spec, hspec, hmiss⟩
    have h1 : validateOneAgentHandoffs (agentNameToAgent agents) p.1 p.2 =
        .error (.unknownHandoffTarget p.1 spec.toConfig.agent_name) ∨
        ∃ e, validateOneAgentHandoffs (agentNameToAgent agents) p.1 p.2 = .error e := by
      right
      simp only [validateOneAgentHandoffs, hcht, htruthy]
      exact exceptForM_error hspec (by rw [hmiss]; rfl)
    have h2 : ∃ e, validateOneAgentHandoffs (agentNameToAgent agents) p.1 p.2 = .error e := by
      rcases h1 with h' | h'
      · exact ⟨_, h'⟩
      · exact h'
    obtain ⟨e1, he1⟩ := h2
    obtain ⟨e2, he2⟩ :=
      @exceptForM_error AgentError (String × LangGraphAgent) (agentNameToAgent agents)
        (fun p => validateOneAgentHandoffs (agentNameToAgent agents) p.1 p.2) p e1 hp he1
    refine ⟨e2, ?_⟩
    simp only [create_multi_agent_workflow]
    rw [show validateAgentHandoffs (agentNameToAgent agents) = .error e2 from he2,
      exceptBindError]
  · decide

/-- C3 witness: a build that succeeds (targets resolve) and a build that
fails (target missing). -/
theorem C3_witness :
    (∃ target,
       dictGet (agentNameToAgent [toolAgentHandoffB, plainAgentB]) "B" = some target ∧
       "B" ∈ (["A", "B"] : List String)) ∧
    (∃ e, create_multi_agent_workflow [toolAgentHandoffZ] = .error e) := by
  constructor
  · exact C3_handoff_target_validation.1 [toolAgentHandoffB, plainAgentB]
      { nodes := ["A", "B"], edges := [] } (by decide)
      ("A", toolAgentHandoffB) (List.mem_cons_self _ _)
      (some [.ofName "B"]) rfl (by decide) (.ofName "B") (by decide)
  · exact C3_handoff_target_validation.2.1 [toolAgentHandoffZ]
      ⟨("A", toolAgentHandoffZ), List.mem_cons_self _ _,
       some [.ofName "Z"], rfl, by decide, .ofName "Z", by decide, rfl⟩

/-- C4 counterexample: a plain `LangGraphAgent` with `tool_response` output
and `full_history` input is accepted — its constructor performs no strategy
validation and the workflow builder accepts and wires it. -/
theorem C4_counterexample :
    badToolResponseAgent.agent_output_strategy = .tool_response ∧
    badToolResponseAgent.agent_input_strategy ≠ .tool_call ∧
    create_multi_agent_workflow [badToolResponseAgent] =
      .ok { nodes := ["A"], edges := [] } := by
  refine ⟨rfl, by decide, by decide⟩

/-- C4 (amended): a `ToolCallingAgent` configured with `tool_response`
output and an input strategy other than `tool_call` always fails at
construction with the strategy-combination error, regardless of the other
fields; the plain `LangGraphAgent` constructor and the workflow builder
perform no such check. -/
theorem C4_tool_response_requires_tool_call (name : String)
    (react_agent : MessagesState → MessagesState) (is_entrypoint : Bool)
    (can_handoff_to : Option (List HandoffSpec))
    (always_handoff_to : Option (List String))
    (agent_input_strategy : AgentInputStrategy)
    (h : agent_input_strategy ≠ .tool_call) :
    ToolCallingAgent.make name react_agent is_entrypoint can_handoff_to
      always_handoff_to agent_input_strategy .tool_response =
      .error .invalidStrategyCombo := by
  unfold ToolCallingAgent.make
  rw [if_pos ⟨rfl, h⟩]
  rfl

/-- C4 witness: a concrete rejected tool-calling configuration. -/
theorem C4_witness :
    ToolCallingAgent.make "A" echoAgent false none none .full_history
      .tool_response = .error .invalidStrategyCombo :=
  C4_tool_response_requires_tool_call "A" echoAgent false none none
    .full_history (by decide)

/-- C9 counterexample: two distinct agent nodes named `"A"` do NOT make the
generic workflow builder fail — it silently keeps the later agent in its
name-keyed table (one entry for two nodes) and registers both vertices. -/
theorem C9_counterexample :
    create_multi_agent_workflow dupAgents =
      .ok { nodes := ["A", "A"], edges := [(START, "A")] } ∧
    (agentNameToAgent dupAgents).length = 1 := by
  refine ⟨by decide, by decide⟩

/-- C9 (amended): the supervisor module rejects duplicate (valid) agent
names with a duplicate-name error; the generic builder's name-keyed table
does not — for pairwise-distinct names it has exactly one entry per node (in
order), while duplicates are silently collapsed (last wins). -/
theorem C9_duplicate_name_handling :
    (∀ agents : List MultiAgentSupervisorModule.NamedGraph,
       (∀ g ∈ agents, ∃ n, g.name = some n ∧ n ≠ "LangGraph") →
       ¬ (agents.map fun g => g.name).Nodup →
       ∃ n, MultiAgentSupervisorModule.validateAgentNamesAux [] agents =
         .error (.duplicateAgentName n)) ∧
    (∀ agents : List LangGraphAgent,
       (agents.map fun a => a.name).Nodup →
       agentNameToAgent agents = (agents.map fun a => (a.name, a)) ∧
       (agentNameToAgent agents).length = agents.length) := by
  constructor
  · intro agents hvalid hdup
    rcases validateAux_ok_or_duplicate agents [] hvalid with h | h
    · exact absurd (validateAux_ok_nodup agents [] h).1 hdup
    · exact h
  · intro agents hnd
    have h := agentNameToAgent_of_nodup agents hnd
    exact ⟨h, by rw [h]; simp⟩

/-- C9 witness: duplicate names rejected by the supervisor module; distinct
names give a one-entry-per-node table. -/
theorem C9_witness :
    (∃ n, MultiAgentSupervisorModule.validateAgentNamesAux [] dupNamedGraphs =
      .error (.duplicateAgentName n)) ∧
    agentNameToAgent [toolAgentHandoffB, plainAgentB] =
      [("A", toolAgentHandoffB), ("B", plainAgentB)] := by
  constructor
  · refine C9_duplicate_name_handling.1 dupNamedGraphs ?_ (by decide)
    intro g hg
    cases hg with
    | head => exact ⟨"x", rfl, by decide⟩
    | tail _ h2 =>
      cases h2 with
      | head => exact ⟨"x", rfl, by decide⟩
      | tail _ h3 => cases h3
  · exact (C9_duplicate_name_handling.2 [toolAgentHandoffB, plainAgentB]
      (by decide)).1

lemma agentStaticEdges_copy (a : LangGraphAgent) (alw : Option (List String))
    (i : AgentInputStrategy) (o : AgentOutputStrategy) :
    agentStaticEdges (a.copy alw i o) =
      (if a.is_entrypoint then [(START, a.name)] else []) ++
      (if truthyList alw then (alw.getD []).map fun t => (a.name, t) else []) := rfl

/-- C8: in the supervisor assembly of `architectures.supervisor` (first
conjunct) and of the `langgraph_multi_agent_supervisor` module (second
conjunct), with `is_router = false` every worker carries an edge back to the
coordinator, and with `is_router = true` no worker does (workers are assumed
not to be named after the engine's `START` sentinel). -/
theorem C8_router_worker_edges :
    (∀ (agents : List LangGraphAgent) (cap : MessagesState → MessagesState)
       (supervisor_name : String) (is_router agents_as_tools : Bool)
       (g : StateGraph),
       create_supervisor agents cap supervisor_name is_router agents_as_tools = .ok g →
       ∀ a ∈ agents, a.name ≠ START →
         (is_router = false → (a.name, supervisor_name) ∈ g.edges) ∧
         (is_router = true → (a.name, supervisor_name) ∉ g.edges)) ∧
    (∀ (agents : List MultiAgentSupervisorModule.NamedGraph) (is_router : Bool)
       (supervisor_name : String) (g : StateGraph),
       MultiAgentSupervisorModule.create_supervisor agents is_router supervisor_name = .ok g →
       ∀ na ∈ agents, ∀ n, na.name = some n → n ≠ START →
         (is_router = false → (n, supervisor_name) ∈ g.edges) ∧
         (is_router = true → (n, supervisor_name) ∉ g.edges)) := by
  constructor
  · intro agents cap supName is_router aat g hok a ha hstart
    obtain ⟨hval, hnodes, hedges⟩ := create_workflow_ok hok
    constructor
    · intro hr
      subst hr
      rw [hedges, List.flatMap_cons]
      apply List.mem_append_right
      refine List.mem_flatMap.mpr ⟨_, List.mem_map_of_mem _ ha, ?_⟩
      by_cases haat : aat <;>
        simp [haat, agentStaticEdges, LangGraphAgent.copy, truthyList]
    · intro hr
      subst hr
      rw [hedges, List.flatMap_cons]
      intro hmem
      rcases List.mem_append.mp hmem with hm1 | hm2
      · simp [agentStaticEdges, truthyList] at hm1
        exact hstart hm1
      · obtain ⟨w, hw, hmem2⟩ := List.mem_flatMap.mp hm2
        obtain ⟨b, hb, rfl⟩ := List.mem_map.mp hw
        by_cases haat : aat <;>
          simp [haat, agentStaticEdges, LangGraphAgent.copy, truthyList] at hmem2 <;>
          exact hstart hmem2.2.1
  · intro agents is_router supName g hok na hna n hn hnstart
    simp only [MultiAgentSupervisorModule.create_supervisor] at hok
    cases hv : MultiAgentSupervisorModule.validateAgentNamesAux [] agents with
    | error e => rw [hv, exceptBindError] at hok; cases hok
    | ok u =>
      cases u
      rw [hv, exceptBindOk] at hok
      have hg := (Except.ok.inj hok).symm
      subst hg
      constructor
      · intro hr
        subst hr
        refine List.mem_cons_of_mem _ (List.mem_flatMap.mpr ⟨na, hna, ?_⟩)
        simp [hn]
      · intro hr
        subst hr
        intro hmem
        simp at hmem
        exact hnstart hmem

/-- C8 witness: one worker; with `is_router = false` the edge back to the
supervisor is present, with `is_router = true` it is absent. -/
theorem C8_witness :
    ("worker", "supervisor") ∈
      ({ nodes := ["supervisor", "worker"],
         edges := [(START, "supervisor"), ("worker", "supervisor")] } : StateGraph).edges ∧
    ("w", "supervisor") ∉
      ({ nodes := ["supervisor", "w"],
         edges := [(START, "supervisor")] } : StateGraph).edges := by
  constructor
  · exact (C8_router_worker_edges.1 [sampleWorker] echoAgent "supervisor" false false
      { nodes := ["supervisor", "worker"],
        edges := [(START, "supervisor"), ("worker", "supervisor")] }
      (by decide) sampleWorker (List.mem_cons_self _ _) (by decide)).1 rfl
  · exact (C8_router_worker_edges.2 [sampleNamedW] true "supervisor"
      { nodes := ["supervisor", "w"], edges := [(START, "supervisor")] }
      (by decide) sampleNamedW (List.mem_cons_self _ _) "w" rfl (by decide)).2 rfl
